import Mathlib

/-!
Verification of the telemetry plugin-orchestration core
(`lib/runner.js`, `lib/task.js`, `lib/plugin-options.js`, `lib/control.js`).

The JavaScript source is shallowly embedded as executable Lean definitions:

* `Status`, `RMachine`, `rstep`, `rrun` — the `AbstractRunner` lifecycle state
  machine (runner.js lines 29-113) together with the `EventEmitter` once-listener
  and `process.nextTick` queue it relies on, as a small-step machine over an
  explicit task queue.
* `MultiRunner`, `startLoop`, `cancelStart`, `stopLoop` — the composite runner
  (runner.js lines 156-269): sequential start with rollback-on-failure, and
  sequential stop with error aggregation.  Child runners are modelled by their
  hook outcomes (`Plugin.startErr`, `Plugin.stopErr`); since the composite
  drives children strictly sequentially, each child hook's completion is
  delivered before the next child is touched, so the loop is a pure recursion.
* `Task`, `takePlugins`, `Task.initRunner`, `Task.ping`, `pingNextStep` — the
  task orchestrator (task.js): registration with freeze, wrapping, the derived
  start/stop orders, and the ping cursor.
* `pluginOptions`, `objAssign2` — plugin-options.js and the
  `Object.assign({}, el[1], arg2)` merge in `Task._takePlugins`.

JavaScript errors are `Err := Nat` (an `Error` object is always truthy, so a
present error is `some e`).  Thrown exceptions are `Except.error msg`.
-/

/-- JavaScript `Error` values, abstracted.  Only identity matters. -/
abbrev Err := Nat

/-- A plugin instance as the lifecycle / ping layer sees it: its constructor
name (used for the fully-qualified diagnostic name), the outcome its `start(cb)`
hook reports, the outcome its `stop(cb)` hook reports, whether
`typeof plugin.ping === 'function'`, and the outcome its `ping(cb)` reports. -/
structure Plugin where
  typeName : String
  startErr : Option Err
  stopErr : Option Err
  pingable : Bool
  pingErr : Option Err
deriving DecidableEq, Repr

def defaultPlugin : Plugin := ⟨"Object", none, none, false, none⟩

/-! ## The AbstractRunner lifecycle machine (runner.js 12-118)

The four states are the `status` symbol's values.  A call to `start`/`stop`,
the asynchronous completion of an in-flight `_start`/`_stop` hook, and a
`process.nextTick(callback, err)` are the three kinds of queued work items; the
machine processes them in FIFO order, which is how Node's microtask queue
behaves for this single-runner code.  `once('start', ...)` / `once('stop', ...)`
listeners registered by the grace branches live in `listeners` until the
corresponding `emit` fires them. -/

inductive Status where
  | stopped
  | starting
  | started
  | stopping
deriving DecidableEq, Repr

/-- Once-listeners the grace branches register (runner.js 47, 50, 90, 93). -/
inductive Listener where
  | startJoin (cb : Nat)
  | startReplayStop (cb : Nat)
  | stopJoin (cb : Nat)
  | stopReplayStart (cb : Nat)
deriving DecidableEq, Repr

/-- Queued work: an external `start`/`stop` call, the completion of the
in-flight start/stop hook, or a `process.nextTick(callback, err)`. -/
inductive Item where
  | callStart (grace : Bool) (cb : Nat)
  | callStop (grace : Bool) (cb : Nat)
  | hookStartDone
  | hookStopDone
  | tick (cb : Nat) (err : Option Err)
deriving DecidableEq, Repr

def msg_start_busy : String := "Cannot start() before stop()"
def msg_start_wait : String := "Cannot start() before stop() has completed"
def msg_stop_busy : String := "Cannot stop() before start()"
def msg_stop_wait : String := "Cannot stop() before start() has completed"

structure RMachine where
  status : Status
  listeners : List Listener
  queue : List Item
  pendingStartCb : Option Nat
  pendingStopCb : Option Nat
  completions : List (Nat × Option Err)
  hookStarts : Nat
  hookStops : Nat
  throws : List String
deriving DecidableEq, Repr

/-- Fire the once-'start' listeners (runner.js 65 `this.emit('start', err)`):
each `startJoin cb` does `process.nextTick(cb, err)`, each `startReplayStop cb`
does `process.nextTick(this.stop, options, cb)` with grace options. -/
def fireStartListeners (ls : List Listener) (e : Option Err) : List Item :=
  ls.filterMap fun l =>
    match l with
    | Listener.startJoin cb => some (Item.tick cb e)
    | Listener.startReplayStop cb => some (Item.callStop true cb)
    | _ => none

def keepNonStartListeners (ls : List Listener) : List Listener :=
  ls.filter fun l =>
    match l with
    | Listener.startJoin _ => false
    | Listener.startReplayStop _ => false
    | _ => true

/-- Fire the once-'stop' listeners (runner.js 108 `this.emit('stop', err)`). -/
def fireStopListeners (ls : List Listener) (e : Option Err) : List Item :=
  ls.filterMap fun l =>
    match l with
    | Listener.stopJoin cb => some (Item.tick cb e)
    | Listener.stopReplayStart cb => some (Item.callStart true cb)
    | _ => none

def keepNonStopListeners (ls : List Listener) : List Listener :=
  ls.filter fun l =>
    match l with
    | Listener.stopJoin _ => false
    | Listener.stopReplayStart _ => false
    | _ => true

/-- One step of the machine: process the head of the queue.  `startE`/`stopE`
are the outcomes the runner's `_start`/`_stop` hooks report.  The
`callStart`/`callStop` branches are a line-by-line translation of
`AbstractRunner.start` (runner.js 42-70) and `AbstractRunner.stop` (85-113). -/
def rstep (startE stopE : Option Err) (m : RMachine) : RMachine :=
  match m.queue with
  | [] => m
  | it :: rest =>
    let m0 := { m with queue := rest }
    match it with
    | Item.callStart grace cb =>
      if grace = true ∧ m0.status = Status.started then
        { m0 with queue := m0.queue ++ [Item.tick cb none] }
      else if grace = true ∧ m0.status = Status.starting then
        { m0 with listeners := m0.listeners ++ [Listener.startJoin cb] }
      else if grace = true ∧ m0.status = Status.stopping then
        { m0 with listeners := m0.listeners ++ [Listener.stopReplayStart cb] }
      else if m0.status = Status.started ∨ m0.status = Status.starting then
        { m0 with throws := m0.throws ++ [msg_start_busy] }
      else if m0.status = Status.stopping then
        { m0 with throws := m0.throws ++ [msg_start_wait] }
      else
        { m0 with status := Status.starting, pendingStartCb := some cb,
                  hookStarts := m0.hookStarts + 1,
                  queue := m0.queue ++ [Item.hookStartDone] }
    | Item.callStop grace cb =>
      if grace = true ∧ m0.status = Status.stopped then
        { m0 with queue := m0.queue ++ [Item.tick cb none] }
      else if grace = true ∧ m0.status = Status.stopping then
        { m0 with listeners := m0.listeners ++ [Listener.stopJoin cb] }
      else if grace = true ∧ m0.status = Status.starting then
        { m0 with listeners := m0.listeners ++ [Listener.startReplayStop cb] }
      else if m0.status = Status.stopped ∨ m0.status = Status.stopping then
        { m0 with throws := m0.throws ++ [msg_stop_busy] }
      else if m0.status = Status.starting then
        { m0 with throws := m0.throws ++ [msg_stop_wait] }
      else
        { m0 with status := Status.stopping, pendingStopCb := some cb,
                  hookStops := m0.hookStops + 1,
                  queue := m0.queue ++ [Item.hookStopDone] }
    | Item.hookStartDone =>
      let e := startE
      let newStatus := if e.isSome then Status.stopped else Status.started
      let comps :=
        match m0.pendingStartCb with
        | some cb0 => m0.completions ++ [(cb0, e)]
        | none => m0.completions
      { m0 with status := newStatus,
                listeners := keepNonStartListeners m0.listeners,
                queue := m0.queue ++ fireStartListeners m0.listeners e,
                pendingStartCb := none,
                completions := comps }
    | Item.hookStopDone =>
      let e := stopE
      let comps :=
        match m0.pendingStopCb with
        | some cb0 => m0.completions ++ [(cb0, e)]
        | none => m0.completions
      { m0 with status := Status.stopped,
                listeners := keepNonStopListeners m0.listeners,
                queue := m0.queue ++ fireStopListeners m0.listeners e,
                pendingStopCb := none,
                completions := comps }
    | Item.tick cb e => { m0 with completions := m0.completions ++ [(cb, e)] }

def rrun (startE stopE : Option Err) : Nat → RMachine → RMachine
  | 0, m => m
  | Nat.succ n, m => rrun startE stopE n (rstep startE stopE m)

/-! ## The MultiRunner composite (runner.js 156-269)

Children are identified by their index into a master list `cs : List Plugin`.
`startOrder` and `stopOrder` hold indices, built exactly as `addRunner` builds
its arrays.  The started/stopped status of every child is a flag function
`Nat → Bool` (`true` = Started).  Because starts and stops are strictly
sequential and each child hook's completion is delivered before the next child
is touched, the loops of `_start`, `_cancelStart` and `_stop` are pure
recursions over the order lists, producing the trace of hook invocations. -/

/-- Hook-invocation trace events of the composite: child `i`'s start hook or
stop hook was invoked. -/
inductive REv where
  | startHook (i : Nat)
  | stopHook (i : Nat)
deriving DecidableEq, Repr

def childStartErr (cs : List Plugin) (i : Nat) : Option Err :=
  (cs.getD i defaultPlugin).startErr

def childStopErr (cs : List Plugin) (i : Nat) : Option Err :=
  (cs.getD i defaultPlugin).stopErr

def setFlag (st : Nat → Bool) (i : Nat) (b : Bool) : Nat → Bool :=
  fun j => if j = i then b else st j

/-- A child's `stop({grace: true}, cb)` as `_cancelStart` issues it
(runner.js 234): on a Started child this is a real stop — hook invoked, status
becomes Stopped, the hook's error reported; on a Stopped child the grace branch
(runner.js 86-88) completes immediately without touching the stop hook. -/
def graceStopChild (cs : List Plugin) (st : Nat → Bool) (i : Nat) :
    (Nat → Bool) × List REv × Option Err :=
  if st i then
    (setFlag st i false, [REv.stopHook i], childStopErr cs i)
  else
    (st, [], none)

/-- `MultiRunner._cancelStart` (runner.js 220-239): stop every child in
`stopOrder` with grace, pushing each reported error onto `errors`, then deliver
`combine(errors)` — modelled as the accumulated error list. -/
def cancelStart (cs : List Plugin) : List Nat → (Nat → Bool) → List Err →
    (Nat → Bool) × List REv × List Err
  | [], st, errors => (st, [], errors)
  | i :: restOrder, st, errors =>
    let r := graceStopChild cs st i
    let res := cancelStart cs restOrder r.1 (errors ++ r.2.2.toList)
    (res.1, r.2.1 ++ res.2.1, res.2.2)

/-- `MultiRunner._start` (runner.js 194-218): start children sequentially in
start order; a child whose hook succeeds becomes Started; on the first hook
error abort and roll back via `cancelStart`, seeding the error list with the
original failure.  Result: final statuses, the hook trace, and `none` on
success or `some errors` (the aggregate) on failure. -/
def startLoop (cs : List Plugin) (stopOrder : List Nat) :
    List Nat → (Nat → Bool) → (Nat → Bool) × List REv × Option (List Err)
  | [], st => (st, [], none)
  | i :: restOrder, st =>
    match childStartErr cs i with
    | none =>
      let res := startLoop cs stopOrder restOrder (setFlag st i true)
      (res.1, REv.startHook i :: res.2.1, res.2.2)
    | some e =>
      let res := cancelStart cs stopOrder st [e]
      (res.1, REv.startHook i :: res.2.1, some res.2.2)

structure MultiRunner where
  startOrder : List Nat
  stopOrder : List Nat
  frozen : Bool
deriving DecidableEq, Repr

def MultiRunner.empty : MultiRunner := ⟨[], [], false⟩

/-- `MultiRunner.addRunner` (runner.js 175-192): push onto `startOrder`,
unshift or push onto `stopOrder` according to `options.stopFirst`; rejected
once the composite has started. -/
def MultiRunner.addRunner (m : MultiRunner) (i : Nat) (stopFirst : Bool) :
    Except String MultiRunner :=
  if m.frozen then Except.error "Cannot addRunner() after start()"
  else Except.ok
    ⟨m.startOrder ++ [i],
     if stopFirst then i :: m.stopOrder else m.stopOrder ++ [i],
     m.frozen⟩

/-- Register a list of (child index, stopFirst) pairs in order.  The error
branch is unreachable while the composite is unfrozen. -/
def addAll : MultiRunner → List (Nat × Bool) → MultiRunner
  | m, [] => m
  | m, p :: rest =>
    match m.addRunner p.1 p.2 with
    | Except.ok m1 => addAll m1 rest
    | Except.error _ => m

/-- Children `0, 1, ..., flags.length - 1` registered in order, child `i` with
`stopFirst = flags[i]`. -/
def withFlags : Nat → List Bool → List (Nat × Bool)
  | _, [] => []
  | i, f :: rest => (i, f) :: withFlags (i + 1) rest

def buildMulti (flags : List Bool) : MultiRunner :=
  addAll MultiRunner.empty (withFlags 0 flags)

def MultiRunner.runStart (cs : List Plugin) (m : MultiRunner) :
    (Nat → Bool) × List REv × Option (List Err) :=
  startLoop cs m.stopOrder m.startOrder (fun _ => false)

/-- A child's plain `stop(cb)` as `MultiRunner._stop` issues it
(runner.js 255): on a Started child the stop hook runs and the child ends
Stopped; on a Stopped child `AbstractRunner.stop` throws (runner.js 98-99). -/
def stopChild (cs : List Plugin) (st : Nat → Bool) (i : Nat) :
    Except String ((Nat → Bool) × List REv × Option Err) :=
  if st i then
    Except.ok (setFlag st i false, [REv.stopHook i], childStopErr cs i)
  else Except.error msg_stop_busy

/-- `MultiRunner._stop` (runner.js 241-260): stop children sequentially in stop
order, collecting each reported error and always moving on to the next child. -/
def stopLoop (cs : List Plugin) : List Nat → (Nat → Bool) → List Err →
    Except String ((Nat → Bool) × List REv × List Err)
  | [], st, errors => Except.ok (st, [], errors)
  | i :: restOrder, st, errors =>
    match stopChild cs st i with
    | Except.error msg => Except.error msg
    | Except.ok (st1, evs1, e) =>
      match stopLoop cs restOrder st1 (errors ++ e.toList) with
      | Except.error msg => Except.error msg
      | Except.ok (st2, evs2, errs) => Except.ok (st2, evs1 ++ evs2, errs)

/-- `MultiRunner._stop` run from the all-Started state, delivering
`errors.length > 0 ? combine(errors) : null` (runner.js 253). -/
def MultiRunner.runStop (cs : List Plugin) (m : MultiRunner) :
    Except String ((Nat → Bool) × List REv × Option (List Err)) :=
  match stopLoop cs m.stopOrder (fun _ => true) [] with
  | Except.error msg => Except.error msg
  | Except.ok (st, evs, errs) =>
    Except.ok (st, evs, if errs.isEmpty then none else some errs)

namespace Telemetry

/-! ## Options objects (plugin-options.js, task.js `_takePlugins`)

A JavaScript options object is modelled by its property lookup,
`Opts := String → Option Nat` (property values abstracted to `Nat`).  A
possibly-`undefined` options argument is `Option Opts`. -/

abbrev Opts := String → Option Nat

def optsLookup (o : Option Opts) (k : String) : Option Nat :=
  match o with
  | none => none
  | some f => f k

/-- plugin-options.js: `null`/`undefined` yields a fresh `{}`; an object is
shallow-copied (`Object.assign({}, options)`), which preserves every property
lookup and never mutates the source. -/
def pluginOptions (o : Option Opts) : Opts :=
  match o with
  | none => fun _ => none
  | some f => fun k => f k

/-- `Object.assign({}, a, b)` (task.js 81): a fresh object; properties of the
later source `b` overwrite those of `a`; `undefined` sources contribute
nothing. -/
def objAssign2 (a b : Option Opts) : Opts :=
  fun k =>
    match optsLookup b k with
    | some v => some v
    | none => optsLookup a k

/-- A plugin factory: `id` identifies the function object, `plugin` the
instance it returns.  (A real factory receives the owning task as its second
argument; that self-reference carries no information used by these claims.) -/
structure Factory where
  id : Nat
  plugin : Plugin

/-- One element of a `collect([...])`-style list argument: a bare factory, a
`[factory, options]` pair (`el.length >= 1`, so the options slot may be
`undefined`), or anything else (rejected with a TypeError). -/
inductive NestedEl where
  | fn (f : Factory)
  | pair (f : Factory) (elOpts : Option Opts)
  | bad

/-- The first argument of a registration call: a factory, an array, or anything
else (rejected with a TypeError). -/
inductive Arg1 where
  | fn (f : Factory)
  | list (els : List NestedEl)
  | bad

inductive Role where
  | collector
  | processor
  | publisher
  | schedule
  | generic
deriving DecidableEq, Repr

/-- The Task's registration state (task.js 8-34): the four role lists and the
one-way `frozen` flag.  (`name` holds the already-formatted `_name`.) -/
structure Task where
  name : String
  collectors : List Plugin
  processors : List Plugin
  publishers : List Plugin
  schedules : List Plugin
  frozen : Bool
deriving DecidableEq, Repr

def addToRole (t : Task) (role : Role) (p : Plugin) : Task :=
  match role with
  | Role.collector => { t with collectors := t.collectors ++ [p] }
  | Role.processor => { t with processors := t.processors ++ [p] }
  | Role.publisher => { t with publishers := t.publishers ++ [p] }
  | Role.schedule => { t with schedules := t.schedules ++ [p] }
  | Role.generic => t

/-- The `for (const el of arg1)` loop of `_takePlugins` (task.js 77-85).
Returns the thrown-or-ok outcome, the task after the call (a TypeError midway
leaves the elements already processed registered), and the factory invocations
performed: each records the factory's id and the options object the factory
received (`pluginFn(pluginOptions(options), this)`, task.js 94). -/
def takeLoop (method : String) (role : Role) (arg2 : Option Opts) :
    Task → List NestedEl → Except String Unit × Task × List (Nat × Opts)
  | t, [] => (Except.ok (), t, [])
  | t, el :: rest =>
    match el with
    | NestedEl.fn f =>
      let res := takeLoop method role arg2 (addToRole t role f.plugin) rest
      (res.1, res.2.1, (f.id, pluginOptions arg2) :: res.2.2)
    | NestedEl.pair f elOpts =>
      let merged := pluginOptions (some (objAssign2 elOpts arg2))
      let res := takeLoop method role arg2 (addToRole t role f.plugin) rest
      (res.1, res.2.1, (f.id, merged) :: res.2.2)
    | NestedEl.bad =>
      (Except.error ("Nested plugin in " ++ method ++
        "([plugin, ..]) must be a function or an array in the form [plugin, options]"),
       t, [])

/-- `Task._takePlugins` (task.js 69-91): frozen tasks reject every registration
before touching anything; otherwise dispatch on the argument's shape. -/
def takePlugins (t : Task) (method : String) (arg1 : Arg1) (arg2 : Option Opts)
    (role : Role) : Except String Unit × Task × List (Nat × Opts) :=
  if t.frozen then
    (Except.error ("Cannot " ++ method ++ "() after task has been frozen"), t, [])
  else
    match arg1 with
    | Arg1.fn f =>
      (Except.ok (), addToRole t role f.plugin, [(f.id, pluginOptions arg2)])
    | Arg1.list els => takeLoop method role arg2 t els
    | Arg1.bad =>
      (Except.error ("First argument in " ++ method ++
        "(arg) must be a function or an array in the form [plugin, ..]"), t, [])

def Task.collect (t : Task) (arg1 : Arg1) (arg2 : Option Opts) :=
  takePlugins t "collect" arg1 arg2 Role.collector

def Task.process (t : Task) (arg1 : Arg1) (arg2 : Option Opts) :=
  takePlugins t "process" arg1 arg2 Role.processor

def Task.publish (t : Task) (arg1 : Arg1) (arg2 : Option Opts) :=
  takePlugins t "publish" arg1 arg2 Role.publisher

def Task.schedule (t : Task) (arg1 : Arg1) (arg2 : Option Opts) :=
  takePlugins t "schedule" arg1 arg2 Role.schedule

def Task.use (t : Task) (arg1 : Arg1) (arg2 : Option Opts) :=
  takePlugins t "use" arg1 arg2 Role.generic

/-- `Task._initialize` (task.js 102-108): the first start freezes the task;
already-frozen tasks are left untouched. -/
def Task.initializeTask (t : Task) : Task :=
  if t.frozen then t else { t with frozen := true }

/-- The children handed to the internal composite, in the order
`_initializePlugins` registers them (task.js 110-137): decorated collectors,
processors, publishers, then schedules. -/
def Task.children (t : Task) : List Plugin :=
  t.collectors ++ t.processors ++ t.publishers ++ t.schedules

/-- `Task._initializePlugins` on the composite side (task.js 122-136): add
collectors/processors/publishers in registration order without `stopFirst`,
then every schedule with `stopFirst: true`. -/
def Task.initRunner (t : Task) : MultiRunner :=
  addAll MultiRunner.empty
    (withFlags 0 ((t.collectors ++ t.processors ++ t.publishers).map (fun _ => false))
     ++ withFlags (t.collectors ++ t.processors ++ t.publishers).length
         (t.schedules.map (fun _ => true)))

/-! ## The ping cursor (task.js 183-258)

`Wrapped` is the `Wrapped` record of task.js 225-231 restricted to what the
ping cursor reads: the fully-qualified name and the plugin's ping behaviour.
`pingNextStep` is one invocation of `Task._pingNext`; `pingDrive` chains the
steps for plugins that complete their ping exactly once. -/

structure Wrapped where
  name : String
  pingable : Bool
  pingErr : Option Err
deriving DecidableEq, Repr

def defaultWrapped : Wrapped := ⟨"", false, none⟩

def fqn (parts : List String) : String :=
  "<" ++ String.intercalate ":" parts ++ ">"

/-- `wrapper(taskName, role)` (task.js 233-240): compute the fully-qualified
name `<TaskName:Role[index]:PluginTypeName>` and the pingable flag. -/
def wrapPlugin (taskName role : String) (idx : Nat) (p : Plugin) : Wrapped :=
  ⟨fqn [taskName, role ++ "[" ++ toString idx ++ "]", p.typeName],
   p.pingable, p.pingErr⟩

/-- `wrappedPlugins` of `_initializePlugins` (task.js 112-114): collectors,
processors, then publishers, each indexed within its role.  Schedules are never
wrapped. -/
def Task.wrappedPlugins (t : Task) : List Wrapped :=
  t.collectors.mapIdx (fun i p => wrapPlugin t.name "Collector" i p)
    ++ t.processors.mapIdx (fun i p => wrapPlugin t.name "Processor" i p)
    ++ t.publishers.mapIdx (fun i p => wrapPlugin t.name "Publisher" i p)

/-- `this._pingablePlugins = wrappedPlugins.filter(w => w.pingable)`
(task.js 120). -/
def Task.pingablePlugins (t : Task) : List Wrapped :=
  t.wrappedPlugins.filter (fun w => w.pingable)

def Task.noPingTarget (t : Task) : String := fqn [t.name, "None"]

/-- The ping cursor's mutable fields (task.js 19, 29-32). -/
structure PingState where
  pinging : Bool
  pingIndex : Nat
  pingCallback : Option Nat
  currentPingTarget : String
deriving DecidableEq, Repr

/-- Observable events of a ping cycle: a plugin's `ping` operation was invoked,
`process.emitWarning(err)` fired (task.js 198), the double-completion warning
fired (task.js 201), or the caller's callback was scheduled with
`process.nextTick(callback)` (task.js 209) — carrying no error. -/
inductive PEv where
  | invokePing (name : String)
  | warnErr (e : Err)
  | warnDouble
  | tickCallback (err : Option Err)
deriving DecidableEq, Repr

/-- One invocation of `Task._pingNext` (task.js 195-215).  Returns the new
cursor state, the events it produced, and the index of the plugin whose `ping`
it invoked, if any. -/
def pingNextStep (pingables : List Wrapped) (noTarget : String)
    (st : PingState) (err : Option Err) : PingState × List PEv × Option Nat :=
  let warns := (err.map PEv.warnErr).toList
  if st.pinging = false then
    (st, warns ++ [PEv.warnDouble], none)
  else if st.pingIndex = pingables.length then
    (⟨false, st.pingIndex, none, noTarget⟩,
     warns ++ [PEv.tickCallback none], none)
  else
    let w := pingables.getD st.pingIndex defaultWrapped
    (⟨true, st.pingIndex + 1, st.pingCallback, w.name⟩,
     warns ++ [PEv.invokePing w.name], some st.pingIndex)

/-- Drive a ping cycle in which every invoked plugin completes its ping exactly
once, reporting its `pingErr`.  Fuel bounds the number of `_pingNext`
invocations. -/
def pingDrive (pingables : List Wrapped) (noTarget : String) :
    Nat → PingState → Option Err → PingState × List PEv
  | 0, st, _ => (st, [])
  | Nat.succ fuel, st, err =>
    match pingNextStep pingables noTarget st err with
    | (st1, evs, some i) =>
      let res := pingDrive pingables noTarget fuel st1
        (pingables.getD i defaultWrapped).pingErr
      (res.1, evs ++ res.2)
    | (st1, evs, none) => (st1, evs)

/-- `Task.ping` (task.js 183-192): reject a reentrant ping, otherwise reset the
cursor and run `_pingNext`; every plugin completes exactly once. -/
def Task.ping (t : Task) (st : PingState) (cb : Nat) :
    Except String (PingState × List PEv) :=
  if st.pinging then
    Except.error "Cannot ping() before completion of previous ping"
  else
    Except.ok (pingDrive t.pingablePlugins t.noPingTarget
      (t.pingablePlugins.length + 1)
      ⟨true, 0, some cb, st.currentPingTarget⟩ none)

/-- The trace a ping cycle produces when every plugin completes exactly once:
each pingable plugin's invocation, its error surfaced as a process warning (if
any), and finally the scheduled caller callback carrying no error. -/
def pingTraceOf : List Wrapped → List PEv
  | [] => [PEv.tickCallback none]
  | w :: rest =>
    PEv.invokePing w.name :: ((w.pingErr.map PEv.warnErr).toList ++ pingTraceOf rest)

end Telemetry

/-! ## Shared lemmas about the composite loops -/

theorem setFlag_ne (st : Nat → Bool) (i b : _) (j : Nat) (h : j ≠ i) :
    setFlag st i b j = st j := by
  simp [setFlag, h]

theorem setFlag_self (st : Nat → Bool) (i : Nat) (b : Bool) :
    setFlag st i b i = b := by
  simp [setFlag]

/-- `_stop`'s sweep: from an all-Started set of children, every child in stop
order has its stop hook invoked exactly once, in order, regardless of earlier
failures, and the collected errors are exactly the hook failures in that
order. -/
theorem stopLoop_sweep (cs : List Plugin) :
    ∀ (so : List Nat) (st : Nat → Bool) (errors : List Err),
    so.Nodup → (∀ j ∈ so, st j = true) →
    ∃ st', stopLoop cs so st errors =
      Except.ok (st', so.map REv.stopHook, errors ++ so.filterMap (childStopErr cs)) := by
  intro so
  induction so with
  | nil =>
    intro st errors _ _
    exact ⟨st, by simp [stopLoop]⟩
  | cons i rest ih =>
    intro st errors hnd hst
    have hi : st i = true := hst i (List.mem_cons_self i rest)
    have hini : i ∉ rest := (List.nodup_cons.mp hnd).1
    have hst' : ∀ j ∈ rest, setFlag st i false j = true := by
      intro j hj
      have hji : j ≠ i := fun h => hini (h ▸ hj)
      rw [setFlag_ne st i false j hji]
      exact hst j (List.mem_cons_of_mem i hj)
    obtain ⟨st', hrec⟩ := ih (setFlag st i false)
      (errors ++ (childStopErr cs i).toList) (List.nodup_cons.mp hnd).2 hst'
    refine ⟨st', ?_⟩
    simp only [stopLoop, stopChild, hi, if_true, hrec]
    cases h : childStopErr cs i <;>
      simp [List.filterMap_cons, h]

/-- `_cancelStart`'s rollback sweep: with child statuses given by the flag
predicate `P`, exactly the children with `P` set are stopped (with grace), in
stop order; the others are left untouched; the errors collected are exactly
the stop-hook failures of the stopped children, appended to the seed list. -/
theorem cancelStart_spec (cs : List Plugin) (P : Nat → Bool) :
    ∀ (so : List Nat) (st : Nat → Bool) (errors : List Err),
    so.Nodup → (∀ j ∈ so, st j = P j) →
    ∃ st', cancelStart cs so st errors =
      (st', (so.filter P).map REv.stopHook,
        errors ++ (so.filter P).filterMap (childStopErr cs)) := by
  intro so
  induction so with
  | nil =>
    intro st errors _ _
    exact ⟨st, by simp [cancelStart]⟩
  | cons i rest ih =>
    intro st errors hnd hst
    have hi : st i = P i := hst i (List.mem_cons_self i rest)
    have hini : i ∉ rest := (List.nodup_cons.mp hnd).1
    cases hPi : P i with
    | false =>
      have hstF : st i = false := by rw [hi, hPi]
      have hst' : ∀ j ∈ rest, st j = P j := fun j hj =>
        hst j (List.mem_cons_of_mem i hj)
      obtain ⟨st', hrec⟩ := ih st errors (List.nodup_cons.mp hnd).2 hst'
      refine ⟨st', ?_⟩
      simp only [cancelStart, graceStopChild, hstF, if_false, Bool.false_eq_true,
        Option.toList_none, List.append_nil, hrec]
      simp [List.filter_cons, hPi]
    | true =>
      have hstT : st i = true := by rw [hi, hPi]
      have hst' : ∀ j ∈ rest, setFlag st i false j = P j := by
        intro j hj
        have hji : j ≠ i := fun h => hini (h ▸ hj)
        rw [setFlag_ne st i false j hji]
        exact hst j (List.mem_cons_of_mem i hj)
      obtain ⟨st', hrec⟩ := ih (setFlag st i false)
        (errors ++ (childStopErr cs i).toList) (List.nodup_cons.mp hnd).2 hst'
      refine ⟨st', ?_⟩
      simp only [cancelStart, graceStopChild, hstT, if_true, hrec]
      cases h : childStopErr cs i <;>
        simp [List.filter_cons, List.filterMap_cons, hPi, h]

/-- Mark a set of children Started, in order. -/
def markTrue (st : Nat → Bool) : List Nat → (Nat → Bool)
  | [] => st
  | i :: rest => markTrue (setFlag st i true) rest

theorem markTrue_apply : ∀ (l : List Nat) (st : Nat → Bool) (j : Nat),
    markTrue st l j = (if j ∈ l then true else st j) := by
  intro l
  induction l with
  | nil => intro st j; simp [markTrue]
  | cons a t ih =>
    intro st j
    rw [markTrue, ih]
    by_cases hjt : j ∈ t
    · simp [hjt]
    · by_cases hja : j = a
      · simp [hjt, hja, setFlag_self]
      · simp [hjt, hja, setFlag_ne st a true j hja]

/-- `_start`'s loop on a prefix of successful children followed by a failing
one: the prefix's start hooks run in order, each marking its child Started,
the failing child's hook runs, and then the rollback takes over with the
original failure as the seed error. -/
theorem startLoop_fail (cs : List Plugin) (so : List Nat) (e : Err) :
    ∀ (l1 : List Nat) (i : Nat) (l2 : List Nat) (st : Nat → Bool),
    (∀ j ∈ l1, childStartErr cs j = none) →
    childStartErr cs i = some e →
    startLoop cs so (l1 ++ i :: l2) st =
      ((cancelStart cs so (markTrue st l1) [e]).1,
       l1.map REv.startHook ++
         REv.startHook i :: (cancelStart cs so (markTrue st l1) [e]).2.1,
       some (cancelStart cs so (markTrue st l1) [e]).2.2) := by
  intro l1
  induction l1 with
  | nil =>
    intro i l2 st _ hfail
    simp [startLoop, hfail, markTrue]
  | cons a t ih =>
    intro i l2 st hok hfail
    have ha : childStartErr cs a = none := hok a (List.mem_cons_self a t)
    have hok' : ∀ j ∈ t, childStartErr cs j = none := fun j hj =>
      hok j (List.mem_cons_of_mem a hj)
    have hrec := ih i l2 (setFlag st a true) hok' hfail
    simp only [List.cons_append, startLoop, ha, List.append_eq]
    rw [hrec]
    simp [markTrue]

theorem addAll_unfrozen_step (so sp : List Nat) (p : Nat × Bool)
    (rest : List (Nat × Bool)) :
    addAll ⟨so, sp, false⟩ (p :: rest) =
      addAll ⟨so ++ [p.1], if p.2 then p.1 :: sp else sp ++ [p.1], false⟩ rest := by
  simp [addAll, MultiRunner.addRunner]

theorem addAll_startOrder : ∀ (ps : List (Nat × Bool)) (so sp : List Nat),
    (addAll ⟨so, sp, false⟩ ps).startOrder = so ++ ps.map Prod.fst := by
  intro ps
  induction ps with
  | nil => intro so sp; simp [addAll]
  | cons p rest ih =>
    intro so sp
    rw [addAll_unfrozen_step, ih]
    simp

theorem addAll_stopOrder_perm : ∀ (ps : List (Nat × Bool)) (so sp : List Nat),
    List.Perm (addAll ⟨so, sp, false⟩ ps).stopOrder (sp ++ ps.map Prod.fst) := by
  intro ps
  induction ps with
  | nil => intro so sp; simp [addAll]
  | cons p rest ih =>
    intro so sp
    rw [addAll_unfrozen_step]
    cases hf : p.2 with
    | true =>
      simp only [if_true]
      refine (ih _ _).trans ?_
      simp only [List.map_cons, List.cons_append]
      exact (@List.perm_middle _ p.1 sp (rest.map Prod.fst)).symm
    | false =>
      simp only [Bool.false_eq_true, if_false]
      refine (ih _ _).trans ?_
      simp [List.append_assoc]

theorem withFlags_map_fst : ∀ (flags : List Bool) (i : Nat),
    (withFlags i flags).map Prod.fst = List.range' i flags.length := by
  intro flags
  induction flags with
  | nil => intro i; simp [withFlags]
  | cons f rest ih =>
    intro i
    simp [withFlags, ih, List.range']

theorem buildMulti_startOrder (flags : List Bool) :
    (buildMulti flags).startOrder = List.range flags.length := by
  rw [buildMulti, MultiRunner.empty, addAll_startOrder, withFlags_map_fst]
  simp [List.range_eq_range']

theorem buildMulti_stopOrder_perm (flags : List Bool) :
    List.Perm (buildMulti flags).stopOrder (List.range flags.length) := by
  rw [buildMulti, MultiRunner.empty]
  have h := addAll_stopOrder_perm (withFlags 0 flags) [] []
  rw [withFlags_map_fst] at h
  simpa [List.range_eq_range'] using h

theorem buildMulti_stopOrder_nodup (flags : List Bool) :
    (buildMulti flags).stopOrder.Nodup := by
  exact (buildMulti_stopOrder_perm flags).symm.nodup (List.nodup_range flags.length)

theorem buildMulti_stopOrder_mem (flags : List Bool) (j : Nat) :
    j ∈ (buildMulti flags).stopOrder ↔ j < flags.length := by
  rw [(buildMulti_stopOrder_perm flags).mem_iff, List.mem_range]

/-! ## Shared lemmas about the ping cursor -/

namespace Telemetry

theorem pingDrive_succ (ps : List Wrapped) (nt : String) (fuel : Nat)
    (st : PingState) (err : Option Err) :
    pingDrive ps nt (fuel + 1) st err =
      match pingNextStep ps nt st err with
      | (st1, evs, some i) =>
        ((pingDrive ps nt fuel st1 (ps.getD i defaultWrapped).pingErr).1,
         evs ++ (pingDrive ps nt fuel st1 (ps.getD i defaultWrapped).pingErr).2)
      | (st1, evs, none) => (st1, evs) := rfl

/-- Driving a cycle from cursor position `i` with every plugin completing once:
the remaining pingables are invoked in order, plugin errors surface as process
warnings, and the caller's callback is scheduled (with no error) after the last
one; the cursor ends reset. -/
theorem pingDrive_spec (ps : List Wrapped) (nt : String) :
    ∀ (n i : Nat) (stc : Option Nat) (stt : String) (err : Option Err),
    i + n = ps.length →
    pingDrive ps nt (n + 1) ⟨true, i, stc, stt⟩ err =
      (⟨false, ps.length, none, nt⟩,
       (err.map PEv.warnErr).toList ++ pingTraceOf (ps.drop i)) := by
  intro n
  induction n with
  | zero =>
    intro i stc stt err hn
    have hlen : i = ps.length := by omega
    subst hlen
    simp [pingDrive, pingNextStep, List.drop_length, pingTraceOf]
  | succ n ih =>
    intro i stc stt err hn
    have hilt : i < ps.length := by omega
    have hne : ¬ (i = ps.length) := by omega
    have hgd : ps.getD i defaultWrapped = ps.get ⟨i, hilt⟩ :=
      List.getD_eq_getElem ps defaultWrapped hilt
    have hdrop : ps.drop i = ps.get ⟨i, hilt⟩ :: ps.drop (i + 1) :=
      (List.getElem_cons_drop ps i hilt).symm
    have hstep : pingNextStep ps nt ⟨true, i, stc, stt⟩ err =
        (⟨true, i + 1, stc, (ps.get ⟨i, hilt⟩).name⟩,
         (err.map PEv.warnErr).toList ++ [PEv.invokePing (ps.get ⟨i, hilt⟩).name],
         some i) := by
      simp [pingNextStep, hne, hgd, List.getElem?_eq_getElem hilt]
    have hrec := ih (i + 1) stc (ps.get ⟨i, hilt⟩).name
      (ps.getD i defaultWrapped).pingErr (by omega)
    rw [pingDrive_succ, hstep]
    dsimp only
    rw [hrec, hdrop]
    simp [pingTraceOf, hgd, List.getElem?_eq_getElem hilt]

theorem pingTraceOf_all_ok : ∀ (l : List Wrapped),
    (∀ w ∈ l, w.pingErr = none) →
    pingTraceOf l = l.map (fun w => PEv.invokePing w.name) ++ [PEv.tickCallback none] := by
  intro l
  induction l with
  | nil => intro _; simp [pingTraceOf]
  | cons w rest ih =>
    intro h
    have hw : w.pingErr = none := h w (List.mem_cons_self w rest)
    rw [pingTraceOf, ih (fun v hv => h v (List.mem_cons_of_mem w hv)), hw]
    simp

theorem pingTraceOf_getLast : ∀ (l : List Wrapped),
    (pingTraceOf l).getLast? = some (PEv.tickCallback none) := by
  intro l
  induction l with
  | nil => rfl
  | cons w rest ih =>
    rw [pingTraceOf]
    rw [List.getLast?_cons]
    cases h : (w.pingErr.map PEv.warnErr).toList ++ pingTraceOf rest with
    | nil =>
      exfalso
      have : pingTraceOf rest = [] := (List.append_eq_nil.mp h).2
      rw [this] at ih
      simp at ih
    | cons a t =>
      rw [← h, List.getLast?_append_of_ne_nil, ih]
      · simp
      · intro hnil
        rw [hnil] at ih
        simp at ih

theorem pingTraceOf_warn_mem : ∀ (l : List Wrapped) (w : Wrapped) (e : Err),
    w ∈ l → w.pingErr = some e → PEv.warnErr e ∈ pingTraceOf l := by
  intro l
  induction l with
  | nil => intro w e hw _; cases hw
  | cons v rest ih =>
    intro w e hw he
    rw [pingTraceOf]
    rcases List.mem_cons.mp hw with heq | hmem
    · subst heq
      rw [he]
      simp
    · simp only [List.mem_cons, List.mem_append]
      exact Or.inr (Or.inr (ih w e hmem he))

theorem addToRole_frozen (t : Task) (r : Role) (p : Plugin) :
    (addToRole t r p).frozen = t.frozen := by
  cases r <;> rfl

theorem takeLoop_frozen (m : String) (r : Role) (a2 : Option Opts) :
    ∀ (els : List NestedEl) (t : Task),
    ((takeLoop m r a2 t els).2.1).frozen = t.frozen := by
  intro els
  induction els with
  | nil => intro t; rfl
  | cons el rest ih =>
    intro t
    cases el with
    | fn f => rw [takeLoop]; dsimp only; rw [ih, addToRole_frozen]
    | pair f elOpts => rw [takeLoop]; dsimp only; rw [ih, addToRole_frozen]
    | bad => rfl

theorem takePlugins_frozen (t : Task) (m : String) (a1 : Arg1) (a2 : Option Opts)
    (r : Role) : ((takePlugins t m a1 a2 r).2.1).frozen = t.frozen := by
  cases hf : t.frozen with
  | true => simp [takePlugins, hf]
  | false =>
    cases a1 with
    | fn f => simp [takePlugins, hf, addToRole_frozen]
    | list els =>
      simp only [takePlugins, hf, Bool.false_eq_true, if_false]
      rw [takeLoop_frozen m r a2 els t, hf]
    | bad => simp [takePlugins, hf]

/-! ## Claim theorems -/

/-- C3: in default (non-grace) mode, calling `start` while Started or Starting
throws synchronously with one message, while Stopping with a distinct message;
calling `stop` while Stopped or Stopping throws with one message, while
Starting with a distinct message; in all four cases the runner's status is
unchanged, no hook is invoked (`hookStarts`/`hookStops` stay 0), no listener is
registered and no completion is delivered. -/
theorem runner_default_mode_guards (cb : Nat) (e se : Option Err) :
    rrun e se 5 ⟨Status.started, [], [Item.callStart false cb], none, none, [], 0, 0, []⟩
      = ⟨Status.started, [], [], none, none, [], 0, 0, [msg_start_busy]⟩
  ∧ rrun e se 5 ⟨Status.starting, [], [Item.callStart false cb], none, none, [], 0, 0, []⟩
      = ⟨Status.starting, [], [], none, none, [], 0, 0, [msg_start_busy]⟩
  ∧ rrun e se 5 ⟨Status.stopping, [], [Item.callStart false cb], none, none, [], 0, 0, []⟩
      = ⟨Status.stopping, [], [], none, none, [], 0, 0, [msg_start_wait]⟩
  ∧ rrun e se 5 ⟨Status.stopped, [], [Item.callStop false cb], none, none, [], 0, 0, []⟩
      = ⟨Status.stopped, [], [], none, none, [], 0, 0, [msg_stop_busy]⟩
  ∧ rrun e se 5 ⟨Status.stopping, [], [Item.callStop false cb], none, none, [], 0, 0, []⟩
      = ⟨Status.stopping, [], [], none, none, [], 0, 0, [msg_stop_busy]⟩
  ∧ rrun e se 5 ⟨Status.starting, [], [Item.callStop false cb], none, none, [], 0, 0, []⟩
      = ⟨Status.starting, [], [], none, none, [], 0, 0, [msg_stop_wait]⟩
  ∧ msg_start_busy ≠ msg_start_wait
  ∧ msg_stop_busy ≠ msg_stop_wait :=
  ⟨rfl, rfl, rfl, rfl, rfl, rfl, by decide, by decide⟩

/-- C4 (amended): grace-mode calls never throw.  Grace `start` while Started is
a successful no-op without invoking the hook; while Starting it joins the
in-flight start and resolves with its outcome `e`; while Stopping it is
deferred until the stop completes and is then re-issued as a fresh start,
invoking the start hook once; from Stopped it proceeds as a normal start.
Grace `stop` is symmetric for Stopped (no-op), Stopping (join, outcome `se`)
and Started (normal stop) — but for the Starting-defer case the re-issued stop
invokes the stop hook once only when the in-flight start succeeded; when the
start failed the runner is already Stopped, so the re-issued grace stop
completes successfully as a no-op without invoking the stop hook.
Callback 0 is the caller of the in-flight operation, callback 1 the grace
caller; `e`/`se` are the start/stop hook outcomes. -/
theorem runner_grace_semantics (e se : Option Err) :
    rrun e se 10 ⟨Status.started, [], [Item.callStart true 1], none, none, [], 0, 0, []⟩
      = ⟨Status.started, [], [], none, none, [(1, none)], 0, 0, []⟩
  ∧ rrun e se 10 ⟨Status.starting, [], [Item.callStart true 1, Item.hookStartDone],
        some 0, none, [], 1, 0, []⟩
      = ⟨if e.isSome then Status.stopped else Status.started, [], [], none, none,
         [(0, e), (1, e)], 1, 0, []⟩
  ∧ rrun e se 10 ⟨Status.stopping, [], [Item.callStart true 1, Item.hookStopDone],
        none, some 0, [], 0, 1, []⟩
      = ⟨if e.isSome then Status.stopped else Status.started, [], [], none, none,
         [(0, se), (1, e)], 1, 1, []⟩
  ∧ rrun e se 10 ⟨Status.stopped, [], [Item.callStart true 1], none, none, [], 0, 0, []⟩
      = ⟨if e.isSome then Status.stopped else Status.started, [], [], none, none,
         [(1, e)], 1, 0, []⟩
  ∧ rrun e se 10 ⟨Status.stopped, [], [Item.callStop true 1], none, none, [], 0, 0, []⟩
      = ⟨Status.stopped, [], [], none, none, [(1, none)], 0, 0, []⟩
  ∧ rrun e se 10 ⟨Status.stopping, [], [Item.callStop true 1, Item.hookStopDone],
        none, some 0, [], 0, 1, []⟩
      = ⟨Status.stopped, [], [], none, none, [(0, se), (1, se)], 0, 1, []⟩
  ∧ rrun e se 10 ⟨Status.starting, [], [Item.callStop true 1, Item.hookStartDone],
        some 0, none, [], 1, 0, []⟩
      = (if e.isSome then
          ⟨Status.stopped, [], [], none, none, [(0, e), (1, none)], 1, 0, []⟩
         else
          ⟨Status.stopped, [], [], none, none, [(0, e), (1, se)], 1, 1, []⟩)
  ∧ rrun e se 10 ⟨Status.started, [], [Item.callStop true 1], none, none, [], 0, 0, []⟩
      = ⟨Status.stopped, [], [], none, none, [(1, se)], 0, 1, []⟩ := by
  cases e <;> cases se <;>
    exact ⟨rfl, rfl, rfl, rfl, rfl, rfl, rfl, rfl⟩

/-- C4 counterexample: a grace `stop` issued while the runner is Starting is
deferred; the in-flight start then fails (outcome `some 7`), leaving the
runner Stopped.  The claim requires the deferred call to be re-issued as a
fresh stop invoking the stop hook once — but the re-issued grace stop finds
the runner Stopped and completes as a no-op: the stop hook is never invoked
(`hookStops` remains 0) and the deferred caller's callback (id 1) completes
with success. -/
theorem runner_grace_defer_stop_skips_hook :
    rrun (some 7) none 10 ⟨Status.starting, [], [Item.callStop true 1, Item.hookStartDone],
        some 0, none, [], 1, 0, []⟩
      = ⟨Status.stopped, [], [], none, none, [(0, some 7), (1, none)], 1, 0, []⟩
  ∧ (rrun (some 7) none 10 ⟨Status.starting, [], [Item.callStop true 1, Item.hookStartDone],
        some 0, none, [], 1, 0, []⟩).hookStops = 0 :=
  ⟨rfl, rfl⟩

theorem range_split (n k : Nat) (hk : k < n) :
    List.range n = List.range k ++ k :: List.range' (k + 1) (n - (k + 1)) := by
  have hra := List.range'_append 0 (k + 1) (n - (k + 1)) 1
  simp only [Nat.zero_add, Nat.one_mul] at hra
  have hsum : n - (k + 1) + (k + 1) = n := by omega
  rw [hsum] at hra
  rw [List.range_eq_range' n, ← hra, ← List.range_eq_range' (k + 1), List.range_succ]
  simp

theorem filter_range_lt (n k : Nat) (hk : k ≤ n) :
    (List.range n).filter (fun j => decide (j < k)) = List.range k := by
  rcases Nat.eq_or_lt_of_le hk with heq | hlt
  · subst heq
    exact List.filter_eq_self.mpr (fun a ha => by
      simp [List.mem_range.mp ha])
  · rw [range_split n k hlt, List.filter_append]
    have h1 : (List.range k).filter (fun j => decide (j < k)) = List.range k :=
      List.filter_eq_self.mpr (fun a ha => by simp [List.mem_range.mp ha])
    have h2 : (k :: List.range' (k + 1) (n - (k + 1))).filter
        (fun j => decide (j < k)) = [] := by
      apply List.filter_eq_nil_iff.mpr
      intro a ha
      rcases List.mem_cons.mp ha with heq2 | hmem
      · subst heq2; simp
      · have := (List.mem_range'_1.mp hmem).1
        simp
        omega
    rw [h1, h2, List.append_nil]

/-- C1: starting a composite whose children 0..n-1 were registered in order
(child `i` with `stopFirst = flags[i]`), where the first `k` children's start
hooks succeed and child `k`'s start hook fails with `e`: the hook trace is the
start hooks of children 0..k in order, followed by the (grace) stop hooks of
exactly the children that had completed their start, in the composite's stop
order — children `k` and beyond are never started and never stopped; the
caller receives a single aggregate consisting of the original failure followed
by every error raised by the rollback stops, in stop order.  The filtered stop
order is a permutation of 0..k-1, i.e. the rollback stops exactly the children
whose start completed. -/
theorem multi_start_failure_rollback (cs : List Plugin) (flags : List Bool)
    (k : Nat) (e : Err)
    (hlen : flags.length = cs.length)
    (hk : k < cs.length)
    (hfail : childStartErr cs k = some e)
    (hpre : ∀ j, j < k → childStartErr cs j = none) :
    (MultiRunner.runStart cs (buildMulti flags)).2.1 =
      (List.range (k + 1)).map REv.startHook ++
        ((buildMulti flags).stopOrder.filter (fun j => decide (j < k))).map REv.stopHook
  ∧ (MultiRunner.runStart cs (buildMulti flags)).2.2 =
      some (e :: ((buildMulti flags).stopOrder.filter (fun j => decide (j < k))).filterMap
        (childStopErr cs))
  ∧ List.Perm ((buildMulti flags).stopOrder.filter (fun j => decide (j < k)))
      (List.range k) := by
  have hso : (buildMulti flags).startOrder = List.range cs.length := by
    rw [buildMulti_startOrder, hlen]
  have hsplit : List.range cs.length =
      List.range k ++ k :: List.range' (k + 1) (cs.length - (k + 1)) :=
    range_split cs.length k hk
  have hok : ∀ j ∈ List.range k, childStartErr cs j = none := fun j hj =>
    hpre j (List.mem_range.mp hj)
  have hnd : (buildMulti flags).stopOrder.Nodup := buildMulti_stopOrder_nodup flags
  have hstfl : ∀ j ∈ (buildMulti flags).stopOrder,
      markTrue (fun _ => false) (List.range k) j = (fun j => decide (j < k)) j := by
    intro j _
    rw [markTrue_apply]
    by_cases hjk : j < k
    · simp [List.mem_range, hjk]
    · simp [List.mem_range, hjk]
  obtain ⟨st', hc⟩ := cancelStart_spec cs (fun j => decide (j < k))
    (buildMulti flags).stopOrder (markTrue (fun _ => false) (List.range k)) [e] hnd hstfl
  have hmain := startLoop_fail cs (buildMulti flags).stopOrder e (List.range k) k
    (List.range' (k + 1) (cs.length - (k + 1))) (fun _ => false) hok hfail
  have hperm : List.Perm
      ((buildMulti flags).stopOrder.filter (fun j => decide (j < k)))
      (List.range k) := by
    have h1 := (buildMulti_stopOrder_perm flags).filter (fun j => decide (j < k))
    rw [hlen, filter_range_lt cs.length k (Nat.le_of_lt hk)] at h1
    exact h1
  refine ⟨?_, ?_, hperm⟩
  · rw [MultiRunner.runStart, hso, hsplit, hmain, hc]
    simp [List.range_succ]
  · rw [MultiRunner.runStart, hso, hsplit, hmain, hc]
    simp

/-- C1 witness: children A (starts, stop fails with 10), B (start fails
with 7), C (never started); the rollback stops exactly A and the caller
receives the aggregate [7, 10]. -/
theorem multi_start_failure_rollback_witness :
    ([false, false, false].length =
      ([⟨"A", none, some 10, false, none⟩, ⟨"B", some 7, none, false, none⟩,
        ⟨"C", none, none, false, none⟩] : List Plugin).length)
  ∧ 1 < ([⟨"A", none, some 10, false, none⟩, ⟨"B", some 7, none, false, none⟩,
        ⟨"C", none, none, false, none⟩] : List Plugin).length
  ∧ childStartErr [⟨"A", none, some 10, false, none⟩, ⟨"B", some 7, none, false, none⟩,
        ⟨"C", none, none, false, none⟩] 1 = some 7
  ∧ ((MultiRunner.runStart [⟨"A", none, some 10, false, none⟩,
        ⟨"B", some 7, none, false, none⟩, ⟨"C", none, none, false, none⟩]
        (buildMulti [false, false, false])).2.1 =
      (List.range 2).map REv.startHook ++
        ((buildMulti [false, false, false]).stopOrder.filter
          (fun j => decide (j < 1))).map REv.stopHook
    ∧ (MultiRunner.runStart [⟨"A", none, some 10, false, none⟩,
        ⟨"B", some 7, none, false, none⟩, ⟨"C", none, none, false, none⟩]
        (buildMulti [false, false, false])).2.2 =
      some (7 :: ((buildMulti [false, false, false]).stopOrder.filter
        (fun j => decide (j < 1))).filterMap
        (childStopErr [⟨"A", none, some 10, false, none⟩,
          ⟨"B", some 7, none, false, none⟩, ⟨"C", none, none, false, none⟩]))
    ∧ List.Perm ((buildMulti [false, false, false]).stopOrder.filter
        (fun j => decide (j < 1))) (List.range 1)) :=
  ⟨rfl, by decide, by decide,
   multi_start_failure_rollback _ [false, false, false] 1 7 rfl (by decide) (by decide)
     (fun j hj => by interval_cases j; decide)⟩

/-- C2: stopping a started composite invokes every child's stop hook, one at a
time, sequentially, in stop order, continuing past individual failures; the
collected failures (in stop order) are delivered as one aggregate if any stop
failed, and as success (`none`) otherwise. -/
theorem multi_stop_sweep (cs : List Plugin) (m : MultiRunner)
    (hnd : m.stopOrder.Nodup) :
    ∃ st', MultiRunner.runStop cs m = Except.ok
      (st', m.stopOrder.map REv.stopHook,
       if (m.stopOrder.filterMap (childStopErr cs)).isEmpty then none
       else some (m.stopOrder.filterMap (childStopErr cs))) := by
  obtain ⟨st', h⟩ := stopLoop_sweep cs m.stopOrder (fun _ => true) [] hnd
    (fun j _ => rfl)
  refine ⟨st', ?_⟩
  rw [MultiRunner.runStop, h]
  simp

/-- C2 witness: children [A, B] where A's stop hook fails with 3: B's stop
hook is still invoked, and the caller receives the aggregate [3]. -/
theorem multi_stop_sweep_witness :
    (([0, 1] : List Nat).Nodup)
  ∧ ∃ st', MultiRunner.runStop
      [⟨"A", none, some 3, false, none⟩, ⟨"B", none, none, false, none⟩]
      ⟨[0, 1], [0, 1], true⟩ = Except.ok
      (st', ([0, 1] : List Nat).map REv.stopHook,
       if (([0, 1] : List Nat).filterMap (childStopErr
          [⟨"A", none, some 3, false, none⟩, ⟨"B", none, none, false, none⟩])).isEmpty
       then none
       else some (([0, 1] : List Nat).filterMap (childStopErr
          [⟨"A", none, some 3, false, none⟩, ⟨"B", none, none, false, none⟩]))) :=
  ⟨by decide,
   multi_stop_sweep [⟨"A", none, some 3, false, none⟩, ⟨"B", none, none, false, none⟩]
     ⟨[0, 1], [0, 1], true⟩ (by decide)⟩

/-- C5: a task with exactly one collector, one processor, one publisher and
one schedule registers its children with the composite as
[collector, processor, publisher, schedule] (indices 0-3), the schedule with
`stopFirst`; therefore start order is [0, 1, 2, 3]
(collector→processor→publisher→schedule) and stop order is [3, 0, 1, 2]
(schedule→collector→processor→publisher), and when every start hook succeeds
the composite's start invokes the start hooks in exactly that order and its
stop invokes the stop hooks in exactly the stop order. -/
theorem task_start_stop_order (c p pub s : Plugin)
    (hc : c.startErr = none) (hp : p.startErr = none)
    (hb : pub.startErr = none) (hs : s.startErr = none) :
    Task.children ⟨"Task(x)", [c], [p], [pub], [s], false⟩ = [c, p, pub, s]
  ∧ (Task.initRunner ⟨"Task(x)", [c], [p], [pub], [s], false⟩).startOrder = [0, 1, 2, 3]
  ∧ (Task.initRunner ⟨"Task(x)", [c], [p], [pub], [s], false⟩).stopOrder = [3, 0, 1, 2]
  ∧ (MultiRunner.runStart (Task.children ⟨"Task(x)", [c], [p], [pub], [s], false⟩)
      (Task.initRunner ⟨"Task(x)", [c], [p], [pub], [s], false⟩)).2.1 =
      [REv.startHook 0, REv.startHook 1, REv.startHook 2, REv.startHook 3]
  ∧ (MultiRunner.runStart (Task.children ⟨"Task(x)", [c], [p], [pub], [s], false⟩)
      (Task.initRunner ⟨"Task(x)", [c], [p], [pub], [s], false⟩)).2.2 = none
  ∧ ∃ st' res, MultiRunner.runStop (Task.children ⟨"Task(x)", [c], [p], [pub], [s], false⟩)
      (Task.initRunner ⟨"Task(x)", [c], [p], [pub], [s], false⟩) =
      Except.ok (st', [REv.stopHook 3, REv.stopHook 0, REv.stopHook 1, REv.stopHook 2], res) := by
  obtain ⟨ctn, cse, cst, cpb, cpe⟩ := c
  obtain ⟨ptn, pse, pst, ppb, ppe⟩ := p
  obtain ⟨btn, bse, bst, bpb, bpe⟩ := pub
  obtain ⟨stn, sse, sst, spb, spe⟩ := s
  simp only at hc hp hb hs
  subst hc; subst hp; subst hb; subst hs
  exact ⟨rfl, rfl, rfl, rfl, rfl, ⟨_, _, rfl⟩⟩

/-- C5 witness. -/
theorem task_start_stop_order_witness :
    ((⟨"C", none, none, false, none⟩ : Plugin).startErr = none)
  ∧ ((⟨"P", none, none, false, none⟩ : Plugin).startErr = none)
  ∧ ((⟨"B", none, none, false, none⟩ : Plugin).startErr = none)
  ∧ ((⟨"S", none, none, false, none⟩ : Plugin).startErr = none)
  ∧ (Task.children ⟨"Task(x)", [⟨"C", none, none, false, none⟩],
        [⟨"P", none, none, false, none⟩], [⟨"B", none, none, false, none⟩],
        [⟨"S", none, none, false, none⟩], false⟩ =
      [⟨"C", none, none, false, none⟩, ⟨"P", none, none, false, none⟩,
       ⟨"B", none, none, false, none⟩, ⟨"S", none, none, false, none⟩]
  ∧ (Task.initRunner ⟨"Task(x)", [⟨"C", none, none, false, none⟩],
        [⟨"P", none, none, false, none⟩], [⟨"B", none, none, false, none⟩],
        [⟨"S", none, none, false, none⟩], false⟩).startOrder = [0, 1, 2, 3]
  ∧ (Task.initRunner ⟨"Task(x)", [⟨"C", none, none, false, none⟩],
        [⟨"P", none, none, false, none⟩], [⟨"B", none, none, false, none⟩],
        [⟨"S", none, none, false, none⟩], false⟩).stopOrder = [3, 0, 1, 2]
  ∧ (MultiRunner.runStart (Task.children ⟨"Task(x)", [⟨"C", none, none, false, none⟩],
        [⟨"P", none, none, false, none⟩], [⟨"B", none, none, false, none⟩],
        [⟨"S", none, none, false, none⟩], false⟩)
      (Task.initRunner ⟨"Task(x)", [⟨"C", none, none, false, none⟩],
        [⟨"P", none, none, false, none⟩], [⟨"B", none, none, false, none⟩],
        [⟨"S", none, none, false, none⟩], false⟩)).2.1 =
      [REv.startHook 0, REv.startHook 1, REv.startHook 2, REv.startHook 3]
  ∧ (MultiRunner.runStart (Task.children ⟨"Task(x)", [⟨"C", none, none, false, none⟩],
        [⟨"P", none, none, false, none⟩], [⟨"B", none, none, false, none⟩],
        [⟨"S", none, none, false, none⟩], false⟩)
      (Task.initRunner ⟨"Task(x)", [⟨"C", none, none, false, none⟩],
        [⟨"P", none, none, false, none⟩], [⟨"B", none, none, false, none⟩],
        [⟨"S", none, none, false, none⟩], false⟩)).2.2 = none
  ∧ ∃ st' res, MultiRunner.runStop (Task.children ⟨"Task(x)", [⟨"C", none, none, false, none⟩],
        [⟨"P", none, none, false, none⟩], [⟨"B", none, none, false, none⟩],
        [⟨"S", none, none, false, none⟩], false⟩)
      (Task.initRunner ⟨"Task(x)", [⟨"C", none, none, false, none⟩],
        [⟨"P", none, none, false, none⟩], [⟨"B", none, none, false, none⟩],
        [⟨"S", none, none, false, none⟩], false⟩) =
      Except.ok (st', [REv.stopHook 3, REv.stopHook 0, REv.stopHook 1, REv.stopHook 2], res)) :=
  ⟨rfl, rfl, rfl, rfl,
   task_start_stop_order ⟨"C", none, none, false, none⟩ ⟨"P", none, none, false, none⟩
     ⟨"B", none, none, false, none⟩ ⟨"S", none, none, false, none⟩ rfl rfl rfl rfl⟩

/-- C6: once a task is frozen, every registration method (collect, process,
publish, schedule, use) throws synchronously with its method-specific
StateError message and returns the task completely unchanged — no role list
is modified and no factory is invoked (the recorded factory-call list is
empty).  Moreover the frozen flag is one-way: no registration call ever
changes it, and the freeze performed by the first start always leaves it
`true`. -/
theorem task_frozen_registration (t : Task) (arg1 : Arg1) (arg2 : Option Opts)
    (hf : t.frozen = true) :
    t.collect arg1 arg2 =
      (Except.error "Cannot collect() after task has been frozen", t, [])
  ∧ t.process arg1 arg2 =
      (Except.error "Cannot process() after task has been frozen", t, [])
  ∧ t.publish arg1 arg2 =
      (Except.error "Cannot publish() after task has been frozen", t, [])
  ∧ t.schedule arg1 arg2 =
      (Except.error "Cannot schedule() after task has been frozen", t, [])
  ∧ t.use arg1 arg2 =
      (Except.error "Cannot use() after task has been frozen", t, [])
  ∧ (∀ (t' : Task) (m : String) (a1 : Arg1) (a2 : Option Opts) (r : Role),
      ((takePlugins t' m a1 a2 r).2.1).frozen = t'.frozen)
  ∧ (∀ t' : Task, (Task.initializeTask t').frozen = true) := by
  refine ⟨?_, ?_, ?_, ?_, ?_, ?_, ?_⟩
  · simp [Task.collect, takePlugins, hf]
  · simp [Task.process, takePlugins, hf]
  · simp [Task.publish, takePlugins, hf]
  · simp [Task.schedule, takePlugins, hf]
  · simp [Task.use, takePlugins, hf]
  · intro t' m a1 a2 r
    exact takePlugins_frozen t' m a1 a2 r
  · intro t'
    cases ht : t'.frozen with
    | true => simp [Task.initializeTask, ht]
    | false => simp [Task.initializeTask, ht]

/-- C6 witness: a frozen task with one registered collector rejects a further
registration and is returned unchanged. -/
theorem task_frozen_registration_witness :
    ((⟨"Task(w)", [defaultPlugin], [], [], [], true⟩ : Task).frozen = true)
  ∧ ((⟨"Task(w)", [defaultPlugin], [], [], [], true⟩ : Task).collect
        (Arg1.fn ⟨0, defaultPlugin⟩) none =
      (Except.error "Cannot collect() after task has been frozen",
       ⟨"Task(w)", [defaultPlugin], [], [], [], true⟩, [])
  ∧ (⟨"Task(w)", [defaultPlugin], [], [], [], true⟩ : Task).process
        (Arg1.fn ⟨0, defaultPlugin⟩) none =
      (Except.error "Cannot process() after task has been frozen",
       ⟨"Task(w)", [defaultPlugin], [], [], [], true⟩, [])
  ∧ (⟨"Task(w)", [defaultPlugin], [], [], [], true⟩ : Task).publish
        (Arg1.fn ⟨0, defaultPlugin⟩) none =
      (Except.error "Cannot publish() after task has been frozen",
       ⟨"Task(w)", [defaultPlugin], [], [], [], true⟩, [])
  ∧ (⟨"Task(w)", [defaultPlugin], [], [], [], true⟩ : Task).schedule
        (Arg1.fn ⟨0, defaultPlugin⟩) none =
      (Except.error "Cannot schedule() after task has been frozen",
       ⟨"Task(w)", [defaultPlugin], [], [], [], true⟩, [])
  ∧ (⟨"Task(w)", [defaultPlugin], [], [], [], true⟩ : Task).use
        (Arg1.fn ⟨0, defaultPlugin⟩) none =
      (Except.error "Cannot use() after task has been frozen",
       ⟨"Task(w)", [defaultPlugin], [], [], [], true⟩, [])
  ∧ (∀ (t' : Task) (m : String) (a1 : Arg1) (a2 : Option Opts) (r : Role),
      ((takePlugins t' m a1 a2 r).2.1).frozen = t'.frozen)
  ∧ (∀ t' : Task, (Task.initializeTask t').frozen = true)) :=
  ⟨rfl, task_frozen_registration ⟨"Task(w)", [defaultPlugin], [], [], [], true⟩
    (Arg1.fn ⟨0, defaultPlugin⟩) none rfl⟩

/-- C7: on an idle task whose pingable plugins all complete their ping
successfully, `ping(cb)` succeeds and produces exactly one `ping` invocation
per pingable plugin — in the fixed order given by `pingablePlugins` (wrapped
collectors, then processors, then publishers, each in registration order, and
filtered to those exposing a ping capability; schedules are never wrapped) —
each step strictly after the previous one's completion, followed by the
caller's callback being scheduled via `process.nextTick` (the only callback
event in the trace, after every ping), never invoked synchronously; the
cursor ends reset with the idle sentinel as current target. -/
theorem task_ping_order (t : Task) (st : PingState) (cb : Nat)
    (hidle : st.pinging = false)
    (hok : ∀ w ∈ t.pingablePlugins, w.pingErr = none) :
    Task.ping t st cb = Except.ok
      (⟨false, t.pingablePlugins.length, none, t.noPingTarget⟩,
       t.pingablePlugins.map (fun w => PEv.invokePing w.name) ++ [PEv.tickCallback none]) := by
  rw [Task.ping]
  simp only [hidle, Bool.false_eq_true, if_false]
  rw [pingDrive_spec t.pingablePlugins t.noPingTarget t.pingablePlugins.length 0
    (some cb) st.currentPingTarget none (by omega)]
  rw [List.drop_zero, pingTraceOf_all_ok t.pingablePlugins hok]
  simp

/-- C7 witness: a task with two collectors (the second without a ping
capability), one processor, one publisher and one schedule pings, in order,
collector 1, the processor and the publisher — skipping collector 2 and the
schedule — and then schedules the callback. -/
theorem task_ping_order_witness :
    ((⟨false, 0, none, "x"⟩ : PingState).pinging = false)
  ∧ (∀ w ∈ (Task.pingablePlugins ⟨"Task(t)",
        [⟨"C1", none, none, true, none⟩, ⟨"C2", none, none, false, none⟩],
        [⟨"P", none, none, true, none⟩], [⟨"B", none, none, true, none⟩],
        [⟨"S", none, none, true, none⟩], true⟩), w.pingErr = none)
  ∧ Task.ping ⟨"Task(t)",
        [⟨"C1", none, none, true, none⟩, ⟨"C2", none, none, false, none⟩],
        [⟨"P", none, none, true, none⟩], [⟨"B", none, none, true, none⟩],
        [⟨"S", none, none, true, none⟩], true⟩ ⟨false, 0, none, "x"⟩ 0 =
      Except.ok
        (⟨false, (Task.pingablePlugins ⟨"Task(t)",
            [⟨"C1", none, none, true, none⟩, ⟨"C2", none, none, false, none⟩],
            [⟨"P", none, none, true, none⟩], [⟨"B", none, none, true, none⟩],
            [⟨"S", none, none, true, none⟩], true⟩).length, none,
          Task.noPingTarget ⟨"Task(t)",
            [⟨"C1", none, none, true, none⟩, ⟨"C2", none, none, false, none⟩],
            [⟨"P", none, none, true, none⟩], [⟨"B", none, none, true, none⟩],
            [⟨"S", none, none, true, none⟩], true⟩⟩,
         (Task.pingablePlugins ⟨"Task(t)",
            [⟨"C1", none, none, true, none⟩, ⟨"C2", none, none, false, none⟩],
            [⟨"P", none, none, true, none⟩], [⟨"B", none, none, true, none⟩],
            [⟨"S", none, none, true, none⟩], true⟩).map
            (fun w => PEv.invokePing w.name) ++ [PEv.tickCallback none])
  ∧ (Task.pingablePlugins ⟨"Task(t)",
        [⟨"C1", none, none, true, none⟩, ⟨"C2", none, none, false, none⟩],
        [⟨"P", none, none, true, none⟩], [⟨"B", none, none, true, none⟩],
        [⟨"S", none, none, true, none⟩], true⟩).map (fun w => PEv.invokePing w.name) =
      [PEv.invokePing "<Task(t):Collector[0]:C1>", PEv.invokePing "<Task(t):Processor[0]:P>",
       PEv.invokePing "<Task(t):Publisher[0]:B>"] :=
  ⟨rfl, by decide,
   task_ping_order ⟨"Task(t)",
     [⟨"C1", none, none, true, none⟩, ⟨"C2", none, none, false, none⟩],
     [⟨"P", none, none, true, none⟩], [⟨"B", none, none, true, none⟩],
     [⟨"S", none, none, true, none⟩], true⟩ ⟨false, 0, none, "x"⟩ 0 rfl (by decide),
   by decide⟩

/-- C8 (amended): an extra ping completion that arrives after the cycle has
finished (`_pinging === false`) is detected and reported as the non-fatal
double-completion warning, does not advance the cursor and leaves the whole
cursor state (index, in-progress flag, pending callback, current target)
unchanged, and invokes no plugin.  (An extra completion arriving while the
cycle is still in progress is indistinguishable from a normal completion and
does advance the cursor — see the counterexample.) -/
theorem ping_double_completion_after_cycle (ps : List Wrapped) (nt : String)
    (st : PingState) (err : Option Err) (h : st.pinging = false) :
    pingNextStep ps nt st err =
      (st, (err.map PEv.warnErr).toList ++ [PEv.warnDouble], none) := by
  simp [pingNextStep, h]

/-- C8 witness: an extra completion against an idle cursor produces exactly
the warning and changes nothing. -/
theorem ping_double_completion_after_cycle_witness :
    ((⟨false, 2, none, "<t:None>"⟩ : PingState).pinging = false)
  ∧ pingNextStep [⟨"A", true, none⟩] "<t:None>" ⟨false, 2, none, "<t:None>"⟩ none =
      (⟨false, 2, none, "<t:None>"⟩, [PEv.warnDouble], none) :=
  ⟨rfl, by
    have h := ping_double_completion_after_cycle [⟨"A", true, none⟩] "<t:None>"
      ⟨false, 2, none, "<t:None>"⟩ none rfl
    simpa using h⟩

/-- C8 counterexample: pingables [A, B, C]; `ping(0)` invokes A (cursor at 1);
A completes once — B is invoked (cursor at 2) and is still pending; A then
completes a second time.  This extra completion arrives while the cycle is in
progress: `_pingNext` does not detect it — it emits no warning — and advances
the cursor a second time, invoking C while B's ping is still outstanding.
This refutes the claim that an extra completion is always detected, reported
as a warning, and never advances the cursor. -/
theorem ping_double_completion_midcycle_advances :
    pingNextStep [⟨"A", true, none⟩, ⟨"B", true, none⟩, ⟨"C", true, none⟩] "<t:None>"
        ⟨true, 0, some 0, "<t:None>"⟩ none =
      (⟨true, 1, some 0, "A"⟩, [PEv.invokePing "A"], some 0)
  ∧ pingNextStep [⟨"A", true, none⟩, ⟨"B", true, none⟩, ⟨"C", true, none⟩] "<t:None>"
        ⟨true, 1, some 0, "A"⟩ none =
      (⟨true, 2, some 0, "B"⟩, [PEv.invokePing "B"], some 1)
  ∧ pingNextStep [⟨"A", true, none⟩, ⟨"B", true, none⟩, ⟨"C", true, none⟩] "<t:None>"
        ⟨true, 2, some 0, "B"⟩ none =
      (⟨true, 3, some 0, "C"⟩, [PEv.invokePing "C"], some 2)
  ∧ PEv.warnDouble ∉
      (pingNextStep [⟨"A", true, none⟩, ⟨"B", true, none⟩, ⟨"C", true, none⟩] "<t:None>"
        ⟨true, 2, some 0, "B"⟩ none).2.1
  ∧ (pingNextStep [⟨"A", true, none⟩, ⟨"B", true, none⟩, ⟨"C", true, none⟩] "<t:None>"
        ⟨true, 2, some 0, "B"⟩ none).1.pingIndex ≠ 2 := by
  refine ⟨by decide, by decide, by decide, by decide, by decide⟩

theorem pingTraceOf_no_err_tick : ∀ (l : List Wrapped) (e : Err),
    PEv.tickCallback (some e) ∉ pingTraceOf l := by
  intro l
  induction l with
  | nil => intro e h; simp [pingTraceOf] at h
  | cons w rest ih =>
    intro e h
    rw [pingTraceOf] at h
    rcases List.mem_cons.mp h with heq | hmem
    · cases heq
    · rcases List.mem_append.mp hmem with hw | ht
      · cases hw2 : w.pingErr with
        | none => rw [hw2] at hw; simp at hw
        | some v => rw [hw2] at hw; simp at hw
      · exact ih e ht

/-- C10 (amended): when a pingable plugin reports an error from its ping
operation, the error is reported through the process-warning side channel
(`process.emitWarning`), the cycle continues, and the ping caller's callback
still receives success: the trace contains a `warnErr` event for every plugin
error, its final event is the callback scheduled with no error, and no
callback event ever carries an error. -/
theorem task_ping_error_to_warning (t : Task) (st : PingState) (cb : Nat)
    (hidle : st.pinging = false) :
    Task.ping t st cb = Except.ok
      (⟨false, t.pingablePlugins.length, none, t.noPingTarget⟩,
       pingTraceOf t.pingablePlugins)
  ∧ (pingTraceOf t.pingablePlugins).getLast? = some (PEv.tickCallback none)
  ∧ (∀ w ∈ t.pingablePlugins, ∀ e, w.pingErr = some e →
      PEv.warnErr e ∈ pingTraceOf t.pingablePlugins)
  ∧ (∀ e : Err, PEv.tickCallback (some e) ∉ pingTraceOf t.pingablePlugins) := by
  refine ⟨?_, pingTraceOf_getLast t.pingablePlugins,
    fun w hw e he => pingTraceOf_warn_mem t.pingablePlugins w e hw he,
    fun e => pingTraceOf_no_err_tick t.pingablePlugins e⟩
  rw [Task.ping]
  simp only [hidle, Bool.false_eq_true, if_false]
  rw [pingDrive_spec t.pingablePlugins t.noPingTarget t.pingablePlugins.length 0
    (some cb) st.currentPingTarget none (by omega)]
  simp

/-- C10 witness. -/
theorem task_ping_error_to_warning_witness :
    ((⟨false, 0, none, "x"⟩ : PingState).pinging = false)
  ∧ (Task.ping ⟨"Task(t)", [⟨"C", none, none, true, some 5⟩], [], [], [], true⟩
        ⟨false, 0, none, "x"⟩ 0 = Except.ok
      (⟨false, (Task.pingablePlugins ⟨"Task(t)", [⟨"C", none, none, true, some 5⟩],
          [], [], [], true⟩).length,
        none, Task.noPingTarget ⟨"Task(t)", [⟨"C", none, none, true, some 5⟩],
          [], [], [], true⟩⟩,
       pingTraceOf (Task.pingablePlugins ⟨"Task(t)", [⟨"C", none, none, true, some 5⟩],
          [], [], [], true⟩))
  ∧ (pingTraceOf (Task.pingablePlugins ⟨"Task(t)", [⟨"C", none, none, true, some 5⟩],
        [], [], [], true⟩)).getLast? = some (PEv.tickCallback none)
  ∧ (∀ w ∈ (Task.pingablePlugins ⟨"Task(t)", [⟨"C", none, none, true, some 5⟩],
        [], [], [], true⟩), ∀ e, w.pingErr = some e →
      PEv.warnErr e ∈ pingTraceOf (Task.pingablePlugins ⟨"Task(t)",
        [⟨"C", none, none, true, some 5⟩], [], [], [], true⟩))
  ∧ (∀ e : Err, PEv.tickCallback (some e) ∉ pingTraceOf (Task.pingablePlugins
      ⟨"Task(t)", [⟨"C", none, none, true, some 5⟩], [], [], [], true⟩))) :=
  ⟨rfl, task_ping_error_to_warning
    ⟨"Task(t)", [⟨"C", none, none, true, some 5⟩], [], [], [], true⟩
    ⟨false, 0, none, "x"⟩ 0 rfl⟩

/-- C10 counterexample: a started task with one pingable collector whose ping
reports error 5.  The cycle completes with the caller's callback scheduled
carrying no error (`tickCallback none`): the failure is diverted to the
process-warning side channel (`warnErr 5`) and is not delivered to the ping
caller's completion signal, contradicting the claim. -/
theorem ping_error_not_delivered_to_callback :
    Task.ping ⟨"Task(t)", [⟨"C", none, none, true, some 5⟩], [], [], [], true⟩
        ⟨false, 0, none, "x"⟩ 0 =
      Except.ok (⟨false, 1, none, "<Task(t):None>"⟩,
        [PEv.invokePing "<Task(t):Collector[0]:C>", PEv.warnErr 5,
         PEv.tickCallback none])
  ∧ PEv.tickCallback (some 5) ∉
      [PEv.invokePing "<Task(t):Collector[0]:C>", PEv.warnErr 5,
       PEv.tickCallback none] := by
  refine ⟨rfl, by decide⟩

/-- C9 (amended): a `[factory, elementOptions]` element registered with
call-level options invokes the factory exactly once with a freshly built
merged options object (`Object.assign({}, elementOptions, callOptions)`
shallow-copied again by `pluginOptions`; in the pure model neither source is
mutated) in which the CALL-LEVEL options take precedence over the
element-specific options: a key present in the call-level options reads its
call-level value, and a key absent there falls back to the element-specific
value. -/
theorem plugin_options_merge (t : Task) (f : Factory)
    (elOpts callOpts : Option Opts) (m : String) (r : Role)
    (hf : t.frozen = false) :
    (takePlugins t m (Arg1.list [NestedEl.pair f elOpts]) callOpts r).1 = Except.ok ()
  ∧ (takePlugins t m (Arg1.list [NestedEl.pair f elOpts]) callOpts r).2.2 =
      [(f.id, pluginOptions (some (objAssign2 elOpts callOpts)))]
  ∧ (∀ (k : String) (v : Nat), optsLookup callOpts k = some v →
      pluginOptions (some (objAssign2 elOpts callOpts)) k = some v)
  ∧ (∀ k : String, optsLookup callOpts k = none →
      pluginOptions (some (objAssign2 elOpts callOpts)) k = optsLookup elOpts k) := by
  refine ⟨?_, ?_, ?_, ?_⟩
  · simp [takePlugins, hf, takeLoop]
  · simp [takePlugins, hf, takeLoop]
  · intro k v h
    simp [pluginOptions, objAssign2, h]
  · intro k h
    simp [pluginOptions, objAssign2, h]

/-- C9 witness: element options {foo: 1}, call options {foo: 2, bar: 3}: the
factory receives foo = 2 (call-level precedence) and bar = 3. -/
theorem plugin_options_merge_witness :
    ((⟨"Task(w)", [], [], [], [], false⟩ : Task).frozen = false)
  ∧ ((takePlugins ⟨"Task(w)", [], [], [], [], false⟩ "collect"
        (Arg1.list [NestedEl.pair ⟨0, defaultPlugin⟩
          (some (fun k => if k = "foo" then some 1 else none))])
        (some (fun k => if k = "foo" then some 2 else
          if k = "bar" then some 3 else none)) Role.collector).1 = Except.ok ()
  ∧ (takePlugins ⟨"Task(w)", [], [], [], [], false⟩ "collect"
        (Arg1.list [NestedEl.pair ⟨0, defaultPlugin⟩
          (some (fun k => if k = "foo" then some 1 else none))])
        (some (fun k => if k = "foo" then some 2 else
          if k = "bar" then some 3 else none)) Role.collector).2.2 =
      [(0, pluginOptions (some (objAssign2
        (some (fun k => if k = "foo" then some 1 else none))
        (some (fun k => if k = "foo" then some 2 else
          if k = "bar" then some 3 else none)))))]
  ∧ (∀ (k : String) (v : Nat),
      optsLookup (some (fun k2 => if k2 = "foo" then some 2 else
        if k2 = "bar" then some 3 else none)) k = some v →
      pluginOptions (some (objAssign2
        (some (fun k2 => if k2 = "foo" then some 1 else none))
        (some (fun k2 => if k2 = "foo" then some 2 else
          if k2 = "bar" then some 3 else none)))) k = some v)
  ∧ (∀ k : String,
      optsLookup (some (fun k2 => if k2 = "foo" then some 2 else
        if k2 = "bar" then some 3 else none)) k = none →
      pluginOptions (some (objAssign2
        (some (fun k2 => if k2 = "foo" then some 1 else none))
        (some (fun k2 => if k2 = "foo" then some 2 else
          if k2 = "bar" then some 3 else none)))) k =
      optsLookup (some (fun k2 => if k2 = "foo" then some 1 else none)) k)) :=
  ⟨rfl, plugin_options_merge ⟨"Task(w)", [], [], [], [], false⟩ ⟨0, defaultPlugin⟩
    (some (fun k => if k = "foo" then some 1 else none))
    (some (fun k => if k = "foo" then some 2 else
      if k = "bar" then some 3 else none)) "collect" Role.collector rfl⟩

/-- C9 counterexample: element options {foo: 1} merged with call-level options
{foo: 2}: the options object the factory receives maps "foo" to 2 — the
call-level value, not the element-specific value 1 — refuting the claim that
element-specific options take precedence. -/
theorem element_options_do_not_take_precedence :
    ((takePlugins ⟨"Task(w)", [], [], [], [], false⟩ "collect"
        (Arg1.list [NestedEl.pair ⟨0, defaultPlugin⟩
          (some (fun k => if k = "foo" then some 1 else none))])
        (some (fun k => if k = "foo" then some 2 else none))
        Role.collector).2.2.headD (0, fun _ => none)).2 "foo" = some 2
  ∧ ((some 2 : Option Nat) ≠ some 1) := by
  refine ⟨by decide, by decide⟩

end Telemetry
